import Mathlib

/- Shallow embedding of generate-icons.py: a script that renders four square
PNG icons, each showing a sine wave and a glowing marker dot on a dark
background, using the PIL imaging library. Pure numeric code is translated
directly; the PIL drawing calls are modelled as operations on an explicit
pixel buffer. -/

/-- Python int() truncation toward zero on a real value. -/
noncomputable def pyInt (r : ℝ) : ℤ := if 0 ≤ r then ⌊r⌋ else ⌈r⌉

/-- An RGB pixel colour (one byte per channel). -/
structure RGB where
  r : ℕ
  g : ℕ
  b : ℕ

/-- An RGBA fill colour as parsed by PIL from a hex string. -/
structure RGBA where
  r : ℕ
  g : ℕ
  b : ℕ
  a : ℕ

/-- Modelled from the spec: PIL drops the alpha component when a fill colour
is applied to an RGB-mode image. -/
def RGBA.rgb (c : RGBA) : RGB := ⟨c.r, c.g, c.b⟩

/-- The background colour literal of the source, hex 05060A. -/
def background : RGB := ⟨0x05, 0x06, 0x0A⟩

/-- The accent colour literal of the source, hex 7AA7FF (opaque). -/
def accent : RGBA := ⟨0x7A, 0xA7, 0xFF, 0xFF⟩

/-- The glow fill literal of the source, hex 7AA7FF40: accent with alpha 0x40. -/
def glowColor : RGBA := ⟨0x7A, 0xA7, 0xFF, 0x40⟩

/-- The mode string passed to Image.new in the source. -/
def imageMode : String := "RGB"

/-- wave_amplitude = size * 0.15 from the source. -/
noncomputable def wave_amplitude (size : ℕ) : ℝ := (size : ℝ) * 0.15

/-- wave_center_y = size // 2 from the source (Python floor division). -/
def wave_center_y (size : ℕ) : ℕ := size / 2

/-- wave_frequency = 1.5 from the source. -/
noncomputable def wave_frequency : ℝ := 1.5

/-- normalized_x = (x / size) * 2 * math.pi * wave_frequency from the source. -/
noncomputable def normalized_x (size x : ℕ) : ℝ :=
  ((x : ℝ) / (size : ℝ)) * 2 * Real.pi * wave_frequency

/-- y = wave_center_y + math.sin(normalized_x) * wave_amplitude from the source. -/
noncomputable def waveY (size x : ℕ) : ℝ :=
  (wave_center_y size : ℝ) + Real.sin (normalized_x size x) * wave_amplitude size

/-- The points list of the source: for x in range(0, size), append (x, int(y)). -/
noncomputable def wavePoints (size : ℕ) : List (ℤ × ℤ) :=
  (List.range size).map fun x : ℕ => ((x : ℤ), pyInt (waveY size x))

/-- The stroke width max(2, size // 100) from the source. -/
def line_width (size : ℕ) : ℕ := max 2 (size / 100)

/-- marker_x = size // 2 from the source. -/
def marker_x (size : ℕ) : ℕ := size / 2

/-- marker_y = wave_center_y - int(wave_amplitude * 0.5) from the source. -/
noncomputable def marker_y (size : ℕ) : ℤ :=
  (wave_center_y size : ℤ) - pyInt (wave_amplitude size * 0.5)

/-- marker_radius = max(6, size // 40) from the source. -/
def marker_radius (size : ℕ) : ℕ := max 6 (size / 40)

/-- glow_radius = marker_radius + 4 from the source. -/
def glow_radius (size : ℕ) : ℕ := marker_radius size + 4

/-- An in-memory image: dimensions plus a pixel map. -/
structure Img where
  width : ℕ
  height : ℕ
  px : ℤ → ℤ → RGB

/-- The two drawing primitives the source invokes on the ImageDraw object. -/
inductive DrawOp where
  | line : List (ℤ × ℤ) → RGBA → ℕ → DrawOp
  | ellipse : ℤ → ℤ → ℤ → ℤ → RGBA → DrawOp

/-- Modelled from the spec: Image.new(mode, (size, size), color) yields a
size-by-size buffer uniformly filled with the colour. -/
def imageNew (size : ℕ) (c : RGB) : Img := ⟨size, size, fun _ _ => c⟩

/-- Modelled from the spec: a stroked polyline of the given width paints only
pixels within Chebyshev distance width of some vertex of the polyline
(an over-approximation of the painted set; consecutive wave samples are one
column apart, so the true stroke lies inside this region). -/
def lineCovers (pts : List (ℤ × ℤ)) (w : ℕ) (i j : ℤ) : Prop :=
  ∃ p ∈ pts, |i - p.1| ≤ (w : ℤ) ∧ |j - p.2| ≤ (w : ℤ)

/-- Modelled from the spec: a filled ellipse paints only pixels inside its
bounding box [x0, x1] times [y0, y1]. -/
def ellipseCovers (x0 y0 x1 y1 i j : ℤ) : Prop :=
  x0 ≤ i ∧ i ≤ x1 ∧ y0 ≤ j ∧ j ≤ y1

/-- The region a drawing operation may paint. -/
def opCovers (op : DrawOp) (i j : ℤ) : Prop :=
  match op with
  | .line pts _ w => lineCovers pts w i j
  | .ellipse x0 y0 x1 y1 _ => ellipseCovers x0 y0 x1 y1 i j

open Classical in
/-- Modelled from the spec: applying a drawing operation paints its region
with the RGB part of its fill colour and leaves every other pixel unchanged. -/
noncomputable def applyOp (img : Img) (op : DrawOp) : Img :=
  match op with
  | .line pts fill w =>
      ⟨img.width, img.height, fun i j =>
        if lineCovers pts w i j then fill.rgb else img.px i j⟩
  | .ellipse x0 y0 x1 y1 fill =>
      ⟨img.width, img.height, fun i j =>
        if ellipseCovers x0 y0 x1 y1 i j then fill.rgb else img.px i j⟩

/-- The drawing operations create_icon issues, in source order: the wave
polyline, then the glow ellipse, then the solid marker ellipse. -/
noncomputable def iconOps (size : ℕ) : List DrawOp :=
  [DrawOp.line (wavePoints size) accent (line_width size),
   DrawOp.ellipse ((marker_x size : ℤ) - (glow_radius size : ℤ))
     (marker_y size - (glow_radius size : ℤ))
     ((marker_x size : ℤ) + (glow_radius size : ℤ))
     (marker_y size + (glow_radius size : ℤ)) glowColor,
   DrawOp.ellipse ((marker_x size : ℤ) - (marker_radius size : ℤ))
     (marker_y size - (marker_radius size : ℤ))
     ((marker_x size : ℤ) + (marker_radius size : ℤ))
     (marker_y size + (marker_radius size : ℤ)) accent]

/-- create_icon(size, filename): new dark image, wave line, glow, marker. -/
noncomputable def create_icon (size : ℕ) : Img :=
  (iconOps size).foldl applyOp (imageNew size background)

/-- Modelled from the spec: PNG encoding is a pure function of the pixel
buffer (dimensions plus pixels), with no run-dependent data embedded. -/
noncomputable def encodePNG (img : Img) : ℕ × ℕ × (ℤ → ℤ → RGB) :=
  (img.width, img.height, img.px)

/-- Ambient run-dependent state (wall clock, randomness seed) available to a
process; the source never consults either. -/
structure Env where
  time : ℕ
  randomSeed : ℕ

/-- One full create_icon call as observed on disk: the filename written and
the encoded PNG bytes. The Env argument records that the run environment is
available but unused by the source. -/
noncomputable def create_icon_run (size : ℕ) (filename : String) (_e : Env) :
    String × (ℕ × ℕ × (ℤ → ℤ → RGB)) :=
  (filename, encodePNG (create_icon size))

/-- The per-icon status line printed by the source. -/
def statusLine (size : ℕ) (filename : String) : String :=
  "✓ Created " ++ filename ++ " (" ++ toString size ++ "x" ++ toString size ++ ")"

/-- The four create_icon calls of the main block, in source order. -/
def mainCalls : List (ℕ × String) :=
  [(192, "icon-192.png"), (512, "icon-512.png"),
   (32, "favicon.png"), (180, "apple-touch-icon.png")]

/-- Observable result of one program run: exit code, printed lines, and the
render calls performed (each of which writes one file). -/
structure RunResult where
  exitCode : ℕ
  messages : List String
  renderCalls : List (ℕ × String)

/-- The program entry point. When the PIL import succeeds the main block runs
the four create_icon calls; when it fails the except branch prints two
guidance lines and calls exit(1), so nothing is rendered or written. -/
def mainProgram (pilAvailable : Bool) : RunResult :=
  if pilAvailable then
    ⟨0,
     ["Generating SineDay Wave icons..."] ++
       mainCalls.map (fun c => statusLine c.1 c.2) ++
       ["\n✓ All icons generated successfully!",
        "\nYou can now delete ICONS_TODO.md and this script."],
     mainCalls⟩
  else
    ⟨1,
     ["PIL (Pillow) not installed. Install with: pip install Pillow",
      "Alternatively, use the online tool or ImageMagick (see ICONS_TODO.md)"],
     []⟩

/-- The wave-sample formula exactly as the claim words it, with real (true)
division size/2 for the vertical centre, for comparison with waveY, which
uses the floor division size // 2 of the source. -/
noncomputable def specWaveY (size x : ℕ) : ℝ :=
  (size : ℝ) / 2 + Real.sin (2 * Real.pi * 1.5 * (x : ℝ) / (size : ℝ)) * (0.15 * (size : ℝ))

/- Helper lemmas shared by several claim theorems. -/

theorem pyInt_gt (r : ℝ) : r - 1 < (pyInt r : ℝ) := by
  unfold pyInt
  split
  · exact Int.sub_one_lt_floor r
  · have := Int.le_ceil r
    push_cast at *
    linarith

theorem pyInt_lt (r : ℝ) : (pyInt r : ℝ) < r + 1 := by
  unfold pyInt
  split
  · have := Int.floor_le r
    push_cast at *
    linarith
  · exact Int.ceil_lt_add_one r

theorem pyInt_eq_floor (r : ℝ) (h : 0 ≤ r) : pyInt r = ⌊r⌋ := by
  unfold pyInt
  exact if_pos h

theorem wave_amplitude_nonneg (s : ℕ) : 0 ≤ wave_amplitude s := by
  unfold wave_amplitude
  positivity

theorem waveY_le (s x : ℕ) :
    waveY s x ≤ (wave_center_y s : ℝ) + wave_amplitude s := by
  unfold waveY
  have h := mul_le_mul_of_nonneg_right (Real.sin_le_one (normalized_x s x))
    (wave_amplitude_nonneg s)
  linarith

theorem le_waveY (s x : ℕ) :
    (wave_center_y s : ℝ) - wave_amplitude s ≤ waveY s x := by
  unfold waveY
  have h := mul_le_mul_of_nonneg_right (Real.neg_one_le_sin (normalized_x s x))
    (wave_amplitude_nonneg s)
  linarith

theorem wavePoints_mem (s : ℕ) (p : ℤ × ℤ) (hp : p ∈ wavePoints s) :
    ∃ x : ℕ, x < s ∧ p = ((x : ℤ), pyInt (waveY s x)) := by
  unfold wavePoints at hp
  obtain ⟨x, hx, rfl⟩ := List.mem_map.1 hp
  exact ⟨x, List.mem_range.1 hx, rfl⟩

theorem wavePoints_snd_bounds (s : ℕ) (p : ℤ × ℤ) (hp : p ∈ wavePoints s) :
    ((wave_center_y s : ℝ) - wave_amplitude s) - 1 < (p.2 : ℝ) ∧
      (p.2 : ℝ) < ((wave_center_y s : ℝ) + wave_amplitude s) + 1 := by
  obtain ⟨x, _, rfl⟩ := wavePoints_mem s p hp
  have h1 := pyInt_gt (waveY s x)
  have h2 := pyInt_lt (waveY s x)
  have h3 := waveY_le s x
  have h4 := le_waveY s x
  constructor <;> simp only [] <;> linarith

theorem applyOp_width (img : Img) (op : DrawOp) : (applyOp img op).width = img.width := by
  cases op <;> rfl

theorem applyOp_height (img : Img) (op : DrawOp) : (applyOp img op).height = img.height := by
  cases op <;> rfl

theorem applyOp_px_of_not_covers (img : Img) (op : DrawOp) (i j : ℤ)
    (h : ¬ opCovers op i j) : (applyOp img op).px i j = img.px i j := by
  cases op with
  | line pts fill w =>
      simp only [opCovers] at h
      simp only [applyOp]
      exact if_neg h
  | ellipse x0 y0 x1 y1 fill =>
      simp only [opCovers] at h
      simp only [applyOp]
      exact if_neg h

theorem foldl_px_of_not_covers (ops : List DrawOp) (img : Img) (i j : ℤ)
    (h : ∀ op ∈ ops, ¬ opCovers op i j) :
    (ops.foldl applyOp img).px i j = img.px i j := by
  induction ops generalizing img with
  | nil => rfl
  | cons op rest ih =>
      simp only [List.foldl_cons]
      rw [ih (applyOp img op) (fun o ho => h o (List.mem_cons_of_mem _ ho)),
        applyOp_px_of_not_covers img op i j (h op (List.mem_cons_self _ _))]

theorem create_icon_px_bg (s : ℕ) (i j : ℤ)
    (h : ∀ op ∈ iconOps s, ¬ opCovers op i j) :
    (create_icon s).px i j = background := by
  unfold create_icon
  rw [foldl_px_of_not_covers _ _ _ _ h]
  rfl

/- Claim theorems. -/

/-- C2: when the imaging dependency is available, the no-argument entry point
performs exactly four render calls, in order (192, icon-192.png),
(512, icon-512.png), (32, favicon.png), (180, apple-touch-icon.png), and each
call produces an image whose pixel dimensions are exactly size by size. -/
theorem c2_main_renders_four_icons :
    (mainProgram true).renderCalls =
      [(192, "icon-192.png"), (512, "icon-512.png"),
       (32, "favicon.png"), (180, "apple-touch-icon.png")] ∧
    (create_icon 192).width = 192 ∧ (create_icon 192).height = 192 ∧
    (create_icon 512).width = 512 ∧ (create_icon 512).height = 512 ∧
    (create_icon 32).width = 32 ∧ (create_icon 32).height = 32 ∧
    (create_icon 180).width = 180 ∧ (create_icon 180).height = 180 :=
  ⟨rfl, rfl, rfl, rfl, rfl, rfl, rfl, rfl, rfl⟩

/-- C3: when the imaging dependency is absent at startup the program prints a
human-readable two-line message with install guidance, exits with status 1
(non-zero), performs no render call and therefore writes no output file. -/
theorem c3_missing_dependency_guard :
    (mainProgram false).exitCode = 1 ∧ (mainProgram false).exitCode ≠ 0 ∧
    (mainProgram false).renderCalls = [] ∧
    (mainProgram false).messages =
      ["PIL (Pillow) not installed. Install with: pip install Pillow",
       "Alternatively, use the online tool or ImageMagick (see ICONS_TODO.md)"] :=
  ⟨rfl, by decide, rfl, rfl⟩

/-- C4: rendering is deterministic: for every size and filename the observable
output of create_icon (the filename written and the encoded PNG) is the same
function of the arguments on any two runs, whatever the ambient run-dependent
state (clock, randomness seed) of each run is. -/
theorem c4_deterministic_render (size : ℕ) (filename : String) (e1 e2 : Env) :
    create_icon_run size filename e1 = create_icon_run size filename e2 := rfl

/-- C6: the glow disc has radius marker_radius + 4, its fill is the accent
colour with translucent alpha 0x40, it is drawn immediately before the
full-opacity marker disc, and the base image mode (hence the encoded output)
is plain RGB with no alpha channel. -/
theorem c6_glow_disc_translucent_rgb_base (size : ℕ) :
    glow_radius size = marker_radius size + 4 ∧
    glowColor.a = 0x40 ∧ glowColor.a < 0xFF ∧ accent.a = 0xFF ∧
    glowColor.rgb = accent.rgb ∧
    imageMode = "RGB" ∧
    iconOps size =
      [DrawOp.line (wavePoints size) accent (line_width size),
       DrawOp.ellipse ((marker_x size : ℤ) - (glow_radius size : ℤ))
         (marker_y size - (glow_radius size : ℤ))
         ((marker_x size : ℤ) + (glow_radius size : ℤ))
         (marker_y size + (glow_radius size : ℤ)) glowColor,
       DrawOp.ellipse ((marker_x size : ℤ) - (marker_radius size : ℤ))
         (marker_y size - (marker_radius size : ℤ))
         ((marker_x size : ℤ) + (marker_radius size : ℤ))
         (marker_y size + (marker_radius size : ℤ)) accent] :=
  ⟨rfl, rfl, by decide, rfl, rfl, rfl, rfl⟩

/-- C5: for every size at least 1 the marker centre is at x = size // 2 and
y = size // 2 minus the integer truncation of half the wave amplitude
(0.5 * 0.15 * size); in particular for size 192 the centre is (96, 82). -/
theorem c5_marker_center (s : ℕ) (_hs : 1 ≤ s) :
    marker_x s = s / 2 ∧
    marker_y s = ((s / 2 : ℕ) : ℤ) - pyInt (0.5 * (0.15 * (s : ℝ))) ∧
    marker_x 192 = 96 ∧ marker_y 192 = 82 := by
  have hval : marker_y 192 = 82 := by
    unfold marker_y wave_center_y wave_amplitude
    have harg : ((192 : ℕ) : ℝ) * 0.15 * 0.5 = 14.4 := by norm_num
    rw [harg, pyInt_eq_floor _ (by norm_num)]
    have hfl : ⌊(14.4 : ℝ)⌋ = 14 := by
      rw [Int.floor_eq_iff]; norm_num
    rw [hfl]
    norm_num
  refine ⟨rfl, ?_, by decide, hval⟩
  unfold marker_y wave_center_y wave_amplitude
  have : (s : ℝ) * 0.15 * 0.5 = 0.5 * (0.15 * (s : ℝ)) := by ring
  rw [this]

/-- Witness for C5 at size 192. -/
theorem c5_marker_center_witness : (1 : ℕ) ≤ 192 ∧ marker_x 192 = 96 ∧ marker_y 192 = 82 :=
  ⟨by decide, (c5_marker_center 192 (by decide)).2.2.1,
    (c5_marker_center 192 (by decide)).2.2.2⟩

/-- C10: for every size at least 1 every point of the computed wave path lies
strictly inside the image bounds: 0 <= x < size and 0 <= int(y) < size, so
the polyline is never clipped. -/
theorem c10_wave_points_in_bounds (s : ℕ) (hs : 1 ≤ s) :
    ∀ p ∈ wavePoints s, 0 ≤ p.1 ∧ p.1 < (s : ℤ) ∧ 0 ≤ p.2 ∧ p.2 < (s : ℤ) := by
  intro p hp
  obtain ⟨x, hx, rfl⟩ := wavePoints_mem s p hp
  have hy : 0 ≤ pyInt (waveY s x) ∧ pyInt (waveY s x) < (s : ℤ) := by
    by_cases h1 : s = 1
    · subst h1
      have hx0 : x = 0 := by omega
      subst hx0
      have hw : waveY 1 0 = 0 := by
        unfold waveY normalized_x wave_center_y wave_frequency wave_amplitude
        norm_num
      rw [hw, pyInt_eq_floor 0 le_rfl]
      norm_num
    · have hs2 : 2 ≤ s := by omega
      have hsr : (2 : ℝ) ≤ (s : ℝ) := by exact_mod_cast hs2
      have hcl : ((s : ℝ) - 1) / 2 ≤ (wave_center_y s : ℝ) := by
        unfold wave_center_y
        have h2 : s ≤ 2 * (s / 2) + 1 := by omega
        have h3 : (s : ℝ) ≤ 2 * ((s / 2 : ℕ) : ℝ) + 1 := by exact_mod_cast h2
        linarith
      have hcu : (wave_center_y s : ℝ) ≤ (s : ℝ) / 2 := by
        unfold wave_center_y
        exact Nat.cast_div_le
      have hamp : wave_amplitude s = 0.15 * (s : ℝ) := by
        unfold wave_amplitude; ring
      have hylb := le_waveY s x
      have hyub := waveY_le s x
      rw [hamp] at hylb hyub
      have hy0 : 0 ≤ waveY s x := by linarith
      rw [pyInt_eq_floor _ hy0]
      refine ⟨Int.floor_nonneg.mpr hy0, Int.floor_lt.mpr ?_⟩
      push_cast
      linarith
  refine ⟨Int.ofNat_nonneg x, ?_, hy.1, hy.2⟩
  show (x : ℤ) < (s : ℤ)
  exact_mod_cast hx

/-- Witness for C10: the wave sample at column 0 of the 192-pixel icon is a
point of the path and lies strictly inside the bounds. -/
theorem c10_wave_points_in_bounds_witness :
    (1 : ℕ) ≤ 192 ∧
      (0 ≤ ((0 : ℤ), pyInt (waveY 192 0)).1 ∧
        ((0 : ℤ), pyInt (waveY 192 0)).1 < (192 : ℤ) ∧
        0 ≤ ((0 : ℤ), pyInt (waveY 192 0)).2 ∧
        ((0 : ℤ), pyInt (waveY 192 0)).2 < (192 : ℤ)) := by
  have hmem : ((0 : ℤ), pyInt (waveY 192 0)) ∈ wavePoints 192 := by
    unfold wavePoints
    exact List.mem_map.mpr ⟨0, List.mem_range.mpr (by norm_num), rfl⟩
  exact ⟨by norm_num, c10_wave_points_in_bounds 192 (by norm_num) _ hmem⟩

/- Numeric facts about the sine values used by claims C1 and C7. -/

theorem sin_three_pi_div_five_ge : (2 / 3 : ℝ) ≤ Real.sin (3 * Real.pi / 5) := by
  have hpi := Real.pi_pos
  have h1 : Real.sin (3 * Real.pi / 5) = Real.sin (2 * Real.pi / 5) := by
    rw [show 3 * Real.pi / 5 = Real.pi - 2 * Real.pi / 5 by ring, Real.sin_pi_sub]
  have hmem1 : Real.pi / 4 ∈ Set.Icc (-(Real.pi / 2)) (Real.pi / 2) := by
    constructor <;> linarith
  have hmem2 : 2 * Real.pi / 5 ∈ Set.Icc (-(Real.pi / 2)) (Real.pi / 2) := by
    constructor <;> linarith
  have hmono := Real.strictMonoOn_sin.monotoneOn hmem1 hmem2 (by linarith)
  rw [Real.sin_pi_div_four] at hmono
  have hsq : Real.sqrt 2 ^ 2 = 2 := Real.sq_sqrt (by norm_num)
  have hnn : (0 : ℝ) ≤ Real.sqrt 2 := Real.sqrt_nonneg 2
  have h43 : (4 / 3 : ℝ) ≤ Real.sqrt 2 := by nlinarith
  rw [h1]
  linarith

theorem normalized_x_five_one : normalized_x 5 1 = 3 * Real.pi / 5 := by
  unfold normalized_x wave_frequency
  push_cast
  ring

theorem waveY_five_one : waveY 5 1 = 2 + Real.sin (3 * Real.pi / 5) * 0.75 := by
  unfold waveY wave_center_y wave_amplitude
  rw [normalized_x_five_one]
  norm_num

theorem pyInt_waveY_five_one : pyInt (waveY 5 1) = 2 := by
  have hge := sin_three_pi_div_five_ge
  have hle := Real.sin_le_one (3 * Real.pi / 5)
  rw [waveY_five_one, pyInt_eq_floor _ (by linarith), Int.floor_eq_iff]
  push_cast
  constructor <;> linarith

theorem specWaveY_five_one : specWaveY 5 1 = 2.5 + Real.sin (3 * Real.pi / 5) * 0.75 := by
  unfold specWaveY
  rw [show 2 * Real.pi * 1.5 * ((1 : ℕ) : ℝ) / ((5 : ℕ) : ℝ) = 3 * Real.pi / 5 by
    push_cast; ring]
  norm_num

theorem pyInt_specWaveY_five_one : pyInt (specWaveY 5 1) = 3 := by
  have hge := sin_three_pi_div_five_ge
  have hle := Real.sin_le_one (3 * Real.pi / 5)
  rw [specWaveY_five_one, pyInt_eq_floor _ (by linarith), Int.floor_eq_iff]
  push_cast
  constructor <;> linarith

/-- C1 counterexample: at size 5 the code samples column 1 at y = 2, but the
formula exactly as the claim words it, with the true division size/2, gives
the integer truncation 3, so the claim as stated fails at size 5, x = 1. -/
theorem c1_counterexample :
    (wavePoints 5)[1]? = some ((1 : ℤ), (2 : ℤ)) ∧
      pyInt (specWaveY 5 1) = 3 ∧
      (wavePoints 5)[1]? ≠ some ((1 : ℤ), pyInt (specWaveY 5 1)) := by
  have hget : (wavePoints 5)[1]? = some ((1 : ℤ), pyInt (waveY 5 1)) := by
    unfold wavePoints
    rw [List.getElem?_map, List.getElem?_range (by norm_num)]
    rfl
  refine ⟨?_, pyInt_specWaveY_five_one, ?_⟩
  · rw [hget, pyInt_waveY_five_one]
  · rw [hget, pyInt_waveY_five_one, pyInt_specWaveY_five_one]
    decide

/-- C1 amended: for every size at least 1 the wave path has exactly one
sample per column x in [0, size), and the sample at column x has y equal to
the integer truncation of size // 2 (floor division, as in the source) plus
sin(2 pi 1.5 x / size) * (0.15 * size); the frequency constant 1.5 gives 1.5
oscillations across the width. -/
theorem c1_amended (s x : ℕ) (hx : x < s) :
    (wavePoints s).length = s ∧
      (wavePoints s)[x]? =
        some ((x : ℤ),
          pyInt (((s / 2 : ℕ) : ℝ) +
            Real.sin (2 * Real.pi * 1.5 * (x : ℝ) / (s : ℝ)) * (0.15 * (s : ℝ)))) := by
  constructor
  · unfold wavePoints
    rw [List.length_map, List.length_range]
  · unfold wavePoints
    rw [List.getElem?_map, List.getElem?_range hx]
    have harg : normalized_x s x = 2 * Real.pi * 1.5 * (x : ℝ) / (s : ℝ) := by
      unfold normalized_x wave_frequency
      ring
    have hamp : wave_amplitude s = 0.15 * (s : ℝ) := by
      unfold wave_amplitude
      ring
    have hy : waveY s x =
        ((s / 2 : ℕ) : ℝ) +
          Real.sin (2 * Real.pi * 1.5 * (x : ℝ) / (s : ℝ)) * (0.15 * (s : ℝ)) := by
      unfold waveY wave_center_y
      rw [harg, hamp]
    simp only [Option.map_some']
    rw [hy]

/-- Witness for the amended C1 at size 192, column 0. -/
theorem c1_amended_witness :
    (0 : ℕ) < 192 ∧
      ((wavePoints 192).length = 192 ∧
        (wavePoints 192)[0]? =
          some ((0 : ℤ),
            pyInt (((192 / 2 : ℕ) : ℝ) +
              Real.sin (2 * Real.pi * 1.5 * ((0 : ℕ) : ℝ) / ((192 : ℕ) : ℝ)) *
                (0.15 * ((192 : ℕ) : ℝ))))) :=
  ⟨by norm_num, c1_amended 192 0 (by norm_num)⟩

theorem normalized_x_192 (x : ℕ) : normalized_x 192 x = (x : ℝ) * Real.pi / 64 := by
  unfold normalized_x wave_frequency
  ring

/-- C7 counterexample: for size 192 the claim places the first peak of the
sine term at column x = size/(2*1.5) = 64, but there the angle is pi and the
sine term is 0, while at column 32 it is 1; so x = 64 is not a maximum of the
sine term over [0, 192). -/
theorem c7_counterexample :
    Real.sin (normalized_x 192 64) = 0 ∧
      Real.sin (normalized_x 192 32) = 1 ∧
      ¬ (∀ x : ℕ, x < 192 →
          Real.sin (normalized_x 192 x) ≤ Real.sin (normalized_x 192 64)) := by
  have h64 : normalized_x 192 64 = Real.pi := by rw [normalized_x_192]; ring
  have h32 : normalized_x 192 32 = Real.pi / 2 := by rw [normalized_x_192]; ring
  refine ⟨by rw [h64, Real.sin_pi], by rw [h32, Real.sin_pi_div_two], ?_⟩
  intro h
  have hc := h 32 (by norm_num)
  rw [h64, h32, Real.sin_pi, Real.sin_pi_div_two] at hc
  linarith

/-- C7 amended: for size 192 the wave y-value at column 0 equals 96 (the
vertical centre, since sin 0 = 0), and the sine term attains its first
maximum over [0, 192) at the quarter-period column x = size/(4*1.5) = 32:
its value there is 1, no column exceeds 1, and every column before 32 stays
strictly below 1. -/
theorem c7_amended (x : ℕ) (_hx : x < 192) :
    pyInt (waveY 192 0) = 96 ∧
      Real.sin (normalized_x 192 32) = 1 ∧
      Real.sin (normalized_x 192 x) ≤ 1 ∧
      (x < 32 → Real.sin (normalized_x 192 x) < 1) := by
  have h0 : pyInt (waveY 192 0) = 96 := by
    have hw : waveY 192 0 = 96 := by
      unfold waveY normalized_x wave_center_y wave_frequency wave_amplitude
      norm_num
    rw [hw, pyInt_eq_floor _ (by norm_num),
      show (96 : ℝ) = ((96 : ℤ) : ℝ) by norm_num, Int.floor_intCast]
  have h32 : normalized_x 192 32 = Real.pi / 2 := by rw [normalized_x_192]; ring
  refine ⟨h0, by rw [h32, Real.sin_pi_div_two], Real.sin_le_one _, ?_⟩
  intro hx32
  rw [normalized_x_192]
  have hpi := Real.pi_pos
  have hxr : (x : ℝ) < 32 := by exact_mod_cast hx32
  have hxnn : (0 : ℝ) ≤ (x : ℝ) := Nat.cast_nonneg x
  have hlt : (x : ℝ) * Real.pi / 64 < Real.pi / 2 := by nlinarith
  have hmem1 : (x : ℝ) * Real.pi / 64 ∈ Set.Icc (-(Real.pi / 2)) (Real.pi / 2) := by
    constructor
    · have hnn : 0 ≤ (x : ℝ) * Real.pi / 64 := by positivity
      linarith
    · linarith
  have hmem2 : Real.pi / 2 ∈ Set.Icc (-(Real.pi / 2)) (Real.pi / 2) := by
    constructor <;> linarith
  have hfin := Real.strictMonoOn_sin hmem1 hmem2 hlt
  rw [Real.sin_pi_div_two] at hfin
  exact hfin

/-- Witness for the amended C7 at column 10. -/
theorem c7_amended_witness :
    (10 : ℕ) < 192 ∧ pyInt (waveY 192 0) = 96 ∧ Real.sin (normalized_x 192 10) < 1 :=
  ⟨by norm_num, (c7_amended 10 (by norm_num)).1,
    (c7_amended 10 (by norm_num)).2.2.2 (by norm_num)⟩

/-- C8 counterexample: there is no single constant ratio c with
marker_radius size = c * size for all positive sizes: size 32 gives radius 6
(ratio 3/16) while size 512 gives radius 12 (ratio 3/128). -/
theorem c8_counterexample :
    ¬ ∃ c : ℝ, ∀ s : ℕ, 0 < s → (marker_radius s : ℝ) = c * s := by
  rintro ⟨c, h⟩
  have h32 := h 32 (by norm_num)
  have h512 := h 512 (by norm_num)
  have e32 : marker_radius 32 = 6 := rfl
  have e512 : marker_radius 512 = 12 := rfl
  rw [e32] at h32
  rw [e512] at h512
  push_cast at h32 h512
  linarith

/-- C8 amended: for every positive size the wave amplitude is the fixed
fraction 0.15 of size, while the marker radius equals max(6, size // 40),
which has the floor value 6 at small sizes and hence is not a fixed fraction
of size. -/
theorem c8_amended (s : ℕ) (_hs : 0 < s) :
    wave_amplitude s = 0.15 * (s : ℝ) ∧ marker_radius s = max 6 (s / 40) :=
  ⟨by unfold wave_amplitude; ring, rfl⟩

/-- Witness for the amended C8 at size 192. -/
theorem c8_amended_witness :
    (0 : ℕ) < 192 ∧ wave_amplitude 192 = 0.15 * ((192 : ℕ) : ℝ) ∧
      marker_radius 192 = max 6 (192 / 40) :=
  ⟨by norm_num, (c8_amended 192 (by norm_num)).1, (c8_amended 192 (by norm_num)).2⟩

/- Per-size integer bounds on the wave sample ordinates, for claim C9. -/

theorem wavePoints_snd_192 (p : ℤ × ℤ) (hp : p ∈ wavePoints 192) :
    (67 : ℤ) ≤ p.2 ∧ p.2 ≤ 125 := by
  have h := wavePoints_snd_bounds 192 p hp
  rw [show ((wave_center_y 192 : ℕ) : ℝ) = 96 by unfold wave_center_y; norm_num,
    show wave_amplitude 192 = 28.8 by unfold wave_amplitude; norm_num] at h
  have hlo : ((66 : ℤ) : ℝ) < (p.2 : ℝ) := by push_cast; linarith [h.1]
  have hhi : (p.2 : ℝ) < ((126 : ℤ) : ℝ) := by push_cast; linarith [h.2]
  have hl : (66 : ℤ) < p.2 := by exact_mod_cast hlo
  have hh : p.2 < (126 : ℤ) := by exact_mod_cast hhi
  omega

theorem wavePoints_snd_512 (p : ℤ × ℤ) (hp : p ∈ wavePoints 512) :
    (179 : ℤ) ≤ p.2 ∧ p.2 ≤ 333 := by
  have h := wavePoints_snd_bounds 512 p hp
  rw [show ((wave_center_y 512 : ℕ) : ℝ) = 256 by unfold wave_center_y; norm_num,
    show wave_amplitude 512 = 76.8 by unfold wave_amplitude; norm_num] at h
  have hlo : ((178 : ℤ) : ℝ) < (p.2 : ℝ) := by push_cast; linarith [h.1]
  have hhi : (p.2 : ℝ) < ((334 : ℤ) : ℝ) := by push_cast; linarith [h.2]
  have hl : (178 : ℤ) < p.2 := by exact_mod_cast hlo
  have hh : p.2 < (334 : ℤ) := by exact_mod_cast hhi
  omega

theorem wavePoints_snd_32 (p : ℤ × ℤ) (hp : p ∈ wavePoints 32) :
    (11 : ℤ) ≤ p.2 ∧ p.2 ≤ 21 := by
  have h := wavePoints_snd_bounds 32 p hp
  rw [show ((wave_center_y 32 : ℕ) : ℝ) = 16 by unfold wave_center_y; norm_num,
    show wave_amplitude 32 = 4.8 by unfold wave_amplitude; norm_num] at h
  have hlo : ((10 : ℤ) : ℝ) < (p.2 : ℝ) := by push_cast; linarith [h.1]
  have hhi : (p.2 : ℝ) < ((22 : ℤ) : ℝ) := by push_cast; linarith [h.2]
  have hl : (10 : ℤ) < p.2 := by exact_mod_cast hlo
  have hh : p.2 < (22 : ℤ) := by exact_mod_cast hhi
  omega

theorem wavePoints_snd_180 (p : ℤ × ℤ) (hp : p ∈ wavePoints 180) :
    (63 : ℤ) ≤ p.2 ∧ p.2 ≤ 117 := by
  have h := wavePoints_snd_bounds 180 p hp
  rw [show ((wave_center_y 180 : ℕ) : ℝ) = 90 by unfold wave_center_y; norm_num,
    show wave_amplitude 180 = 27 by unfold wave_amplitude; norm_num] at h
  have hlo : ((62 : ℤ) : ℝ) < (p.2 : ℝ) := by push_cast; linarith [h.1]
  have hhi : (p.2 : ℝ) < ((118 : ℤ) : ℝ) := by push_cast; linarith [h.2]
  have hl : (62 : ℤ) < p.2 := by exact_mod_cast hlo
  have hh : p.2 < (118 : ℤ) := by exact_mod_cast hhi
  omega

theorem iconOps_not_covered_192 (i j : ℤ) (hi : i = 0 ∨ i = 191) (hj : j = 0 ∨ j = 191) :
    ∀ op ∈ iconOps 192, ¬ opCovers op i j := by
  intro op hop
  unfold iconOps at hop
  simp only [List.mem_cons, List.not_mem_nil, or_false] at hop
  rcases hop with rfl | rfl | rfl
  · simp only [opCovers, lineCovers]
    rintro ⟨p, hp, h1, h2⟩
    obtain ⟨hlo, hhi⟩ := wavePoints_snd_192 p hp
    rw [show ((line_width 192 : ℕ) : ℤ) = 2 by decide] at h2
    have habs1 := neg_le_abs (j - p.2)
    have habs2 := le_abs_self (j - p.2)
    rcases hj with rfl | rfl <;> linarith
  · simp only [opCovers, ellipseCovers]
    rintro ⟨h1, h2, h3, h4⟩
    rw [show ((marker_x 192 : ℕ) : ℤ) = 96 by decide] at h1 h2
    rw [show ((glow_radius 192 : ℕ) : ℤ) = 10 by decide] at h1 h2
    rcases hi with rfl | rfl <;> omega
  · simp only [opCovers, ellipseCovers]
    rintro ⟨h1, h2, h3, h4⟩
    rw [show ((marker_x 192 : ℕ) : ℤ) = 96 by decide] at h1 h2
    rw [show ((marker_radius 192 : ℕ) : ℤ) = 6 by decide] at h1 h2
    rcases hi with rfl | rfl <;> omega

theorem iconOps_not_covered_512 (i j : ℤ) (hi : i = 0 ∨ i = 511) (hj : j = 0 ∨ j = 511) :
    ∀ op ∈ iconOps 512, ¬ opCovers op i j := by
  intro op hop
  unfold iconOps at hop
  simp only [List.mem_cons, List.not_mem_nil, or_false] at hop
  rcases hop with rfl | rfl | rfl
  · simp only [opCovers, lineCovers]
    rintro ⟨p, hp, h1, h2⟩
    obtain ⟨hlo, hhi⟩ := wavePoints_snd_512 p hp
    rw [show ((line_width 512 : ℕ) : ℤ) = 5 by decide] at h2
    have habs1 := neg_le_abs (j - p.2)
    have habs2 := le_abs_self (j - p.2)
    rcases hj with rfl | rfl <;> linarith
  · simp only [opCovers, ellipseCovers]
    rintro ⟨h1, h2, h3, h4⟩
    rw [show ((marker_x 512 : ℕ) : ℤ) = 256 by decide] at h1 h2
    rw [show ((glow_radius 512 : ℕ) : ℤ) = 16 by decide] at h1 h2
    rcases hi with rfl | rfl <;> omega
  · simp only [opCovers, ellipseCovers]
    rintro ⟨h1, h2, h3, h4⟩
    rw [show ((marker_x 512 : ℕ) : ℤ) = 256 by decide] at h1 h2
    rw [show ((marker_radius 512 : ℕ) : ℤ) = 12 by decide] at h1 h2
    rcases hi with rfl | rfl <;> omega

theorem iconOps_not_covered_32 (i j : ℤ) (hi : i = 0 ∨ i = 31) (hj : j = 0 ∨ j = 31) :
    ∀ op ∈ iconOps 32, ¬ opCovers op i j := by
  intro op hop
  unfold iconOps at hop
  simp only [List.mem_cons, List.not_mem_nil, or_false] at hop
  rcases hop with rfl | rfl | rfl
  · simp only [opCovers, lineCovers]
    rintro ⟨p, hp, h1, h2⟩
    obtain ⟨hlo, hhi⟩ := wavePoints_snd_32 p hp
    rw [show ((line_width 32 : ℕ) : ℤ) = 2 by decide] at h2
    have habs1 := neg_le_abs (j - p.2)
    have habs2 := le_abs_self (j - p.2)
    rcases hj with rfl | rfl <;> linarith
  · simp only [opCovers, ellipseCovers]
    rintro ⟨h1, h2, h3, h4⟩
    rw [show ((marker_x 32 : ℕ) : ℤ) = 16 by decide] at h1 h2
    rw [show ((glow_radius 32 : ℕ) : ℤ) = 10 by decide] at h1 h2
    rcases hi with rfl | rfl <;> omega
  · simp only [opCovers, ellipseCovers]
    rintro ⟨h1, h2, h3, h4⟩
    rw [show ((marker_x 32 : ℕ) : ℤ) = 16 by decide] at h1 h2
    rw [show ((marker_radius 32 : ℕ) : ℤ) = 6 by decide] at h1 h2
    rcases hi with rfl | rfl <;> omega

theorem iconOps_not_covered_180 (i j : ℤ) (hi : i = 0 ∨ i = 179) (hj : j = 0 ∨ j = 179) :
    ∀ op ∈ iconOps 180, ¬ opCovers op i j := by
  intro op hop
  unfold iconOps at hop
  simp only [List.mem_cons, List.not_mem_nil, or_false] at hop
  rcases hop with rfl | rfl | rfl
  · simp only [opCovers, lineCovers]
    rintro ⟨p, hp, h1, h2⟩
    obtain ⟨hlo, hhi⟩ := wavePoints_snd_180 p hp
    rw [show ((line_width 180 : ℕ) : ℤ) = 2 by decide] at h2
    have habs1 := neg_le_abs (j - p.2)
    have habs2 := le_abs_self (j - p.2)
    rcases hj with rfl | rfl <;> linarith
  · simp only [opCovers, ellipseCovers]
    rintro ⟨h1, h2, h3, h4⟩
    rw [show ((marker_x 180 : ℕ) : ℤ) = 90 by decide] at h1 h2
    rw [show ((glow_radius 180 : ℕ) : ℤ) = 10 by decide] at h1 h2
    rcases hi with rfl | rfl <;> omega
  · simp only [opCovers, ellipseCovers]
    rintro ⟨h1, h2, h3, h4⟩
    rw [show ((marker_x 180 : ℕ) : ℤ) = 90 by decide] at h1 h2
    rw [show ((marker_radius 180 : ℕ) : ℤ) = 6 by decide] at h1 h2
    rcases hi with rfl | rfl <;> omega

/-- C9: for every one of the four generated icons, the rendered pixel at each
of the four image corners equals the dark background colour 05060A: neither
the wave stroke, the glow disc nor the marker disc reaches any corner. -/
theorem c9_corner_pixels_background :
    ((create_icon 192).px 0 0 = background ∧ (create_icon 192).px 191 0 = background ∧
      (create_icon 192).px 0 191 = background ∧ (create_icon 192).px 191 191 = background) ∧
    ((create_icon 512).px 0 0 = background ∧ (create_icon 512).px 511 0 = background ∧
      (create_icon 512).px 0 511 = background ∧ (create_icon 512).px 511 511 = background) ∧
    ((create_icon 32).px 0 0 = background ∧ (create_icon 32).px 31 0 = background ∧
      (create_icon 32).px 0 31 = background ∧ (create_icon 32).px 31 31 = background) ∧
    ((create_icon 180).px 0 0 = background ∧ (create_icon 180).px 179 0 = background ∧
      (create_icon 180).px 0 179 = background ∧ (create_icon 180).px 179 179 = background) := by
  refine ⟨⟨?_, ?_, ?_, ?_⟩, ⟨?_, ?_, ?_, ?_⟩, ⟨?_, ?_, ?_, ?_⟩, ⟨?_, ?_, ?_, ?_⟩⟩
  · exact create_icon_px_bg 192 0 0 (iconOps_not_covered_192 0 0 (Or.inl rfl) (Or.inl rfl))
  · exact create_icon_px_bg 192 191 0 (iconOps_not_covered_192 191 0 (Or.inr rfl) (Or.inl rfl))
  · exact create_icon_px_bg 192 0 191 (iconOps_not_covered_192 0 191 (Or.inl rfl) (Or.inr rfl))
  · exact create_icon_px_bg 192 191 191 (iconOps_not_covered_192 191 191 (Or.inr rfl) (Or.inr rfl))
  · exact create_icon_px_bg 512 0 0 (iconOps_not_covered_512 0 0 (Or.inl rfl) (Or.inl rfl))
  · exact create_icon_px_bg 512 511 0 (iconOps_not_covered_512 511 0 (Or.inr rfl) (Or.inl rfl))
  · exact create_icon_px_bg 512 0 511 (iconOps_not_covered_512 0 511 (Or.inl rfl) (Or.inr rfl))
  · exact create_icon_px_bg 512 511 511 (iconOps_not_covered_512 511 511 (Or.inr rfl) (Or.inr rfl))
  · exact create_icon_px_bg 32 0 0 (iconOps_not_covered_32 0 0 (Or.inl rfl) (Or.inl rfl))
  · exact create_icon_px_bg 32 31 0 (iconOps_not_covered_32 31 0 (Or.inr rfl) (Or.inl rfl))
  · exact create_icon_px_bg 32 0 31 (iconOps_not_covered_32 0 31 (Or.inl rfl) (Or.inr rfl))
  · exact create_icon_px_bg 32 31 31 (iconOps_not_covered_32 31 31 (Or.inr rfl) (Or.inr rfl))
  · exact create_icon_px_bg 180 0 0 (iconOps_not_covered_180 0 0 (Or.inl rfl) (Or.inl rfl))
  · exact create_icon_px_bg 180 179 0 (iconOps_not_covered_180 179 0 (Or.inr rfl) (Or.inl rfl))
  · exact create_icon_px_bg 180 0 179 (iconOps_not_covered_180 0 179 (Or.inl rfl) (Or.inr rfl))
  · exact create_icon_px_bg 180 179 179 (iconOps_not_covered_180 179 179 (Or.inr rfl) (Or.inr rfl))
